import Mathlib

/-!
# Verification of the MIDIBoy real-time MIDI pipeline

Shallow embedding of the MIDIBoy firmware core (files `midi_uart.c`,
`mode_mgb.c`, `usb_midi.c`, headers `config.h`, `mode_mgb.h`) and proofs
about the claims of its specification.

Machine bytes are modelled as `Nat` values below 256; the C bitwise
operators `&`, `|` are `&&&`, `|||` on `Nat`.  Module-level mutable state
becomes explicit state records threaded through the translated functions.
-/

namespace MIDIBoy

/-! ## Constants from `config.h` and `mode_mgb.h` -/

def MIDI_RX_BUFFER_SIZE : Nat := 256

def MGB_INTER_BYTE_DELAY_US : Nat := 500

def MGB_CHANNEL_COUNT : Nat := 5

/-! ## `midi_message_type_t` from `midi_uart.h`

The C enum assigns consecutive values starting at `MIDI_MSG_NONE = 0`;
`toNat` records those values because `mode_mgb_process` compares them
with `<=` / `>=`. -/

inductive MidiMsgType where
  | none
  | noteOff
  | noteOn
  | polyPressure
  | controlChange
  | programChange
  | channelPressure
  | pitchBend
  | sysexStart
  | mtcQuarter
  | songPosition
  | songSelect
  | tuneRequest
  | sysexEnd
  | clock
  | start
  | cont
  | stop
  | activeSensing
  | systemReset
deriving DecidableEq, Repr

def MidiMsgType.toNat : MidiMsgType → Nat
  | .none => 0
  | .noteOff => 1
  | .noteOn => 2
  | .polyPressure => 3
  | .controlChange => 4
  | .programChange => 5
  | .channelPressure => 6
  | .pitchBend => 7
  | .sysexStart => 8
  | .mtcQuarter => 9
  | .songPosition => 10
  | .songSelect => 11
  | .tuneRequest => 12
  | .sysexEnd => 13
  | .clock => 14
  | .start => 15
  | .cont => 16
  | .stop => 17
  | .activeSensing => 18
  | .systemReset => 19

/-! ## `midi_message_t` from `midi_uart.h`

`raw[3]` becomes the three fields `raw0`, `raw1`, `raw2`. -/

structure MidiMessage where
  type : MidiMsgType
  channel : Nat
  data1 : Nat
  data2 : Nat
  raw0 : Nat
  raw1 : Nat
  raw2 : Nat
  length : Nat
deriving DecidableEq, Repr

/-- Static storage in C is zero-initialised; this is `s_current_msg`'s
initial value (`MIDI_MSG_NONE = 0`). -/
def MidiMessage.zero : MidiMessage :=
  { type := .none, channel := 0, data1 := 0, data2 := 0,
    raw0 := 0, raw1 := 0, raw2 := 0, length := 0 }

/-- The on-wire bytes `raw[0..length]` of an emitted message. -/
def MidiMessage.rawBytes (m : MidiMessage) : List Nat :=
  [m.raw0] ++ (if 2 ≤ m.length then [m.raw1] else []) ++
    (if 3 ≤ m.length then [m.raw2] else [])

/-! ## `parser_state_t` and the parser state of `midi_uart.c` -/

inductive ParserState where
  | idle
  | status
  | data1
  | data2
  | sysex
deriving DecidableEq, Repr

/-- The module-level state of `midi_uart.c` that the byte parser and the
polling queue touch: `s_parser_state`, `s_running_status`,
`s_current_msg`, `s_expected_data_bytes`, `s_message_ready`,
`s_message_queue`, `s_message_count`. -/
structure MidiParser where
  state : ParserState
  runningStatus : Nat
  currentMsg : MidiMessage
  expectedDataBytes : Nat
  messageReady : Bool
  messageQueue : MidiMessage
  messageCount : Nat
deriving DecidableEq, Repr

/-- Parser state after `midi_uart_init` (statics zero-initialised). -/
def MidiParser.init : MidiParser :=
  { state := .idle, runningStatus := 0, currentMsg := MidiMessage.zero,
    expectedDataBytes := 0, messageReady := false,
    messageQueue := MidiMessage.zero, messageCount := 0 }

/-- Translation of `get_data_byte_count` from `midi_uart.c`. -/
def get_data_byte_count (status : Nat) : Nat :=
  match status &&& 0xF0 with
  | 0x80 => 2
  | 0x90 => 2
  | 0xA0 => 2
  | 0xB0 => 2
  | 0xE0 => 2
  | 0xC0 => 1
  | 0xD0 => 1
  | 0xF0 =>
    match status with
    | 0xF0 => 255
    | 0xF1 => 1
    | 0xF3 => 1
    | 0xF2 => 2
    | _ => 0
  | _ => 0

/-- Translation of `get_message_type` from `midi_uart.c`. -/
def get_message_type (status : Nat) : MidiMsgType :=
  match status &&& 0xF0 with
  | 0x80 => .noteOff
  | 0x90 => .noteOn
  | 0xA0 => .polyPressure
  | 0xB0 => .controlChange
  | 0xC0 => .programChange
  | 0xD0 => .channelPressure
  | 0xE0 => .pitchBend
  | 0xF0 =>
    match status with
    | 0xF0 => .sysexStart
    | 0xF1 => .mtcQuarter
    | 0xF2 => .songPosition
    | 0xF3 => .songSelect
    | 0xF6 => .tuneRequest
    | 0xF7 => .sysexEnd
    | 0xF8 => .clock
    | 0xFA => .start
    | 0xFB => .cont
    | 0xFC => .stop
    | 0xFE => .activeSensing
    | 0xFF => .systemReset
    | _ => .none
  | _ => .none

/-- Translation of `is_realtime_message` from `midi_uart.c`. -/
def is_realtime_message (b : Nat) : Bool := 0xF8 ≤ b

/-- The NoteOn-velocity-0 adjustment at the top of `dispatch_message`. -/
def canonicalize_note_on (m : MidiMessage) : MidiMessage :=
  if m.type = MidiMsgType.noteOn ∧ m.data2 = 0 then
    { m with type := .noteOff, raw0 := 0x80 ||| m.channel }
  else m

/-- Translation of `dispatch_message` from `midi_uart.c`: count the message, canonicalise
NoteOn with velocity 0 to NoteOff, hand the message to the registered
callback (returned as the second component) and store it in the one-slot
polling queue when that slot is free. -/
def dispatch_message (p : MidiParser) : MidiParser × MidiMessage :=
  let p := { p with messageCount := p.messageCount + 1 }
  let m := canonicalize_note_on p.currentMsg
  let p := { p with currentMsg := m }
  let p := if p.messageReady then p
    else { p with messageQueue := m, messageReady := true }
  (p, m)

/-- The record fields written by the `PARSER_DATA1` branch of
`parse_byte`. -/
def MidiMessage.putData1 (m : MidiMessage) (b : Nat) : MidiMessage :=
  { m with data1 := b, raw1 := b, length := 2 }

/-- The record fields written by the `PARSER_DATA2` branch of
`parse_byte`. -/
def MidiMessage.putData2 (m : MidiMessage) (b : Nat) : MidiMessage :=
  { m with data2 := b, raw2 := b, length := 3 }

/-- The partial message recorded when a channel-voice status byte (or the
running status `rs`) starts a message: `type`, `channel`, `raw[0]` and
`length` are written, the other fields keep their previous values. -/
def MidiMessage.startStatus (m : MidiMessage) (rs : Nat) : MidiMessage :=
  { m with type := get_message_type rs, channel := rs &&& 0x0F,
           raw0 := rs, length := 1 }

/-- Translation of `parse_byte` from `midi_uart.c`.  The returned list holds the
messages delivered to the message callback by this byte (zero or one). -/
def parse_byte (p : MidiParser) (b : Nat) : MidiParser × List MidiMessage :=
  if is_realtime_message b then
    let rt : MidiMessage :=
      { type := get_message_type b, channel := 0, data1 := 0, data2 := 0,
        raw0 := b, raw1 := 0, raw2 := 0, length := 1 }
    ({ p with messageCount := p.messageCount + 1 }, [rt])
  else if b &&& 0x80 ≠ 0 then
    let p := if b &&& 0xF0 = 0xF0 then { p with runningStatus := 0 }
      else { p with runningStatus := b }
    let p := { p with expectedDataBytes := get_data_byte_count b }
    if b = 0xF0 then
      ({ p with state := .sysex }, [])
    else if b = 0xF7 then
      ({ p with state := .idle }, [])
    else if p.expectedDataBytes = 0 then
      let complete : MidiMessage :=
        { type := get_message_type b, channel := b &&& 0x0F,
          data1 := 0, data2 := 0, raw0 := b,
          raw1 := p.currentMsg.raw1, raw2 := p.currentMsg.raw2,
          length := 1 }
      let p := { p with currentMsg := complete }
      let (p, m) := dispatch_message p
      ({ p with state := .idle }, [m])
    else
      ({ p with state := .data1,
                currentMsg := p.currentMsg.startStatus b }, [])
  else
    let p := if p.state = ParserState.idle ∧ p.runningStatus ≠ 0 then
        { p with expectedDataBytes := get_data_byte_count p.runningStatus,
                 currentMsg := p.currentMsg.startStatus p.runningStatus,
                 state := ParserState.data1 }
      else p
    if p.state = ParserState.idle ∨ p.state = ParserState.sysex then
      (p, [])
    else if p.state = ParserState.data1 then
      let p := { p with currentMsg := p.currentMsg.putData1 b }
      if p.expectedDataBytes = 1 then
        let p := { p with currentMsg := { p.currentMsg with data2 := 0 } }
        let (p, m) := dispatch_message p
        ({ p with state := .idle }, [m])
      else
        ({ p with state := .data2 }, [])
    else if p.state = ParserState.data2 then
      let p := { p with currentMsg := p.currentMsg.putData2 b }
      let (p, m) := dispatch_message p
      ({ p with state := .idle }, [m])
    else
      (p, [])

/-- Feed a list of bytes through `parse_byte`, collecting all callback
emissions in order. -/
def parse_bytes (p : MidiParser) : List Nat → MidiParser × List MidiMessage
  | [] => (p, [])
  | b :: rest =>
    let pr := parse_byte p b
    let pr' := parse_bytes pr.1 rest
    (pr'.1, pr.2 ++ pr'.2)

/-! ## The UART RX ring buffer of `midi_uart.c`

`s_rx_buffer` is modelled as a function from indices (used modulo the
buffer size) to bytes; `s_rx_head` / `s_rx_tail` are kept reduced below
`MIDI_RX_BUFFER_SIZE`, exactly as the C code keeps them by masking with
`MIDI_RX_BUFFER_SIZE - 1` on every advance. -/

structure RxRing where
  buf : Nat → Nat
  head : Nat
  tail : Nat
  errorCount : Nat
  rxCount : Nat

def RxRing.init : RxRing :=
  { buf := fun _ => 0, head := 0, tail := 0, errorCount := 0, rxCount := 0 }

/-- The body of `on_uart_rx`'s while-loop for one received byte (the raw
byte callback is not registered in mGB mode). -/
def on_uart_rx_byte (r : RxRing) (b : Nat) : RxRing :=
  let r := { r with rxCount := r.rxCount + 1 }
  let next_head := (r.head + 1) &&& (MIDI_RX_BUFFER_SIZE - 1)
  if next_head ≠ r.tail then
    { r with buf := fun i => if i = r.head then b else r.buf i,
             head := next_head }
  else
    { r with errorCount := r.errorCount + 1 }

/-- The while-loop of `midi_uart_process`, split into its ring effect and
the ordered list of bytes it hands to `parse_byte`.  The loop body's ring
operations and parser operations touch disjoint state, so applying the
parser to the collected bytes afterwards is equivalent.  The loop runs
until `tail = head`; the ring holds fewer than `MIDI_RX_BUFFER_SIZE`
readable bytes, so that much fuel reaches the loop's exit. -/
def ring_drain : Nat → RxRing → RxRing × List Nat
  | 0, r => (r, [])
  | fuel + 1, r =>
    if r.tail = r.head then (r, [])
    else
      let b := r.buf r.tail
      let r' := { r with tail := (r.tail + 1) &&& (MIDI_RX_BUFFER_SIZE - 1) }
      let res := ring_drain fuel r'
      (res.1, b :: res.2)

/-- Translation of `midi_uart_get_message` from `midi_uart.c`; `msgNull` models the
`msg == NULL` argument check. -/
def midi_uart_get_message (p : MidiParser) (msgNull : Bool) :
    Option MidiMessage × MidiParser :=
  if ¬ p.messageReady ∨ msgNull then (none, p)
  else (some p.messageQueue, { p with messageReady := false })

/-! ## USB-MIDI (`usb_midi.c`) -/

/-- Model of a 4-byte USB-MIDI event packet. -/
structure UsbPacket where
  b0 : Nat
  b1 : Nat
  b2 : Nat
  b3 : Nat
deriving DecidableEq, Repr

/-- Translation of `parse_usb_midi_packet` from `usb_midi.c`. -/
def parse_usb_midi_packet (pkt : UsbPacket) : MidiMessage :=
  let m0 : MidiMessage :=
    { type := .none, channel := 0, data1 := 0, data2 := 0,
      raw0 := pkt.b1, raw1 := pkt.b2, raw2 := pkt.b3, length := 0 }
  match pkt.b0 &&& 0x0F with
  | 0x02 | 0x06 | 0x0C | 0x0D =>
    { m0 with length := 2, type := get_message_type m0.raw0,
              channel := m0.raw0 &&& 0x0F, data1 := m0.raw1, data2 := 0 }
  | 0x03 | 0x08 | 0x09 | 0x0A | 0x0B | 0x0E =>
    { m0 with length := 3, type := get_message_type m0.raw0,
              channel := m0.raw0 &&& 0x0F, data1 := m0.raw1,
              data2 := m0.raw2 }
  | 0x05 | 0x0F =>
    { m0 with length := 1, type := get_message_type m0.raw0,
              channel := 0, data1 := 0, data2 := 0 }
  | _ => { m0 with length := 0, type := .none }

/-- Translation of `get_usb_midi_code_index` from `usb_midi.c`. -/
def get_usb_midi_code_index (m : MidiMessage) : Nat :=
  match m.type with
  | .noteOff => 0x08
  | .noteOn => 0x09
  | .polyPressure => 0x0A
  | .controlChange => 0x0B
  | .programChange => 0x0C
  | .channelPressure => 0x0D
  | .pitchBend => 0x0E
  | .sysexStart => 0x04
  | .sysexEnd => 0x05
  | .mtcQuarter => 0x02
  | .songPosition => 0x03
  | .songSelect => 0x02
  | .tuneRequest => 0x05
  | .clock => 0x0F
  | .start => 0x0F
  | .cont => 0x0F
  | .stop => 0x0F
  | .activeSensing => 0x0F
  | .systemReset => 0x0F
  | .none => 0x00

/-! ## `mode_mgb.c`: configuration and the coordinator state -/

/-- Translation of `mode_mgb_config_t` from `mode_mgb.h`; the two C arrays are modelled
as functions of their index. -/
structure ModeMgbConfig where
  midiToMgbChannel : Nat → Nat
  channelEnabled : Nat → Bool

/-- Translation of `apply_default_config` from `mode_mgb.c`. -/
def apply_default_config : ModeMgbConfig :=
  { midiToMgbChannel := fun i => if i < MGB_CHANNEL_COUNT then i else 0xFF,
    channelEnabled := fun _ => true }

/-- The combined state the mGB pipeline touches: the UART ring, the
parser/queue state, the coordinator's configuration, counters and
inter-byte clock, the Link Sink output and the USB side.

Time is an explicit `clock` in microseconds; `sleep_us` advances it and
`get_absolute_time` reads it.  `gb_link_send_byte_blocking` records the
byte and its enqueue instant in `linkSent` and takes the head of the
`linkDelays` oracle as the wall-clock time it spends blocking and
serialising before returning. -/
structure MgbSystem where
  ring : RxRing
  parser : MidiParser
  config : ModeMgbConfig
  active : Bool
  forwardCount : Nat
  dropCount : Nat
  lastByteTime : Nat
  clock : Nat
  linkDelays : List Nat
  linkSent : List (Nat × Nat)
  usbMounted : Bool
  usbRxPackets : List UsbPacket
  usbRxCount : Nat
  usbTxCount : Nat
  usbSent : List UsbPacket

/-- System state right after `mode_mgb_init` (default config, callbacks
registered, `s_last_byte_time = get_absolute_time()`, statistics reset),
with initial clock `c0`, blocking-delay oracle `delays`, USB mount state
`mounted` and pending USB packets `pkts`. -/
def MgbSystem.init (c0 : Nat) (delays : List Nat) (mounted : Bool)
    (pkts : List UsbPacket) : MgbSystem :=
  { ring := RxRing.init, parser := MidiParser.init,
    config := apply_default_config, active := true,
    forwardCount := 0, dropCount := 0,
    lastByteTime := c0, clock := c0,
    linkDelays := delays, linkSent := [],
    usbMounted := mounted, usbRxPackets := pkts,
    usbRxCount := 0, usbTxCount := 0, usbSent := [] }

/-- Translation of `usb_midi_send_message` from `usb_midi.c` (the TinyUSB write is
modelled as succeeding whenever the device is mounted). -/
def usb_midi_send_message (s : MgbSystem) (m : MidiMessage) :
    MgbSystem × Bool :=
  if ¬ s.usbMounted ∨ m.length = 0 then (s, false)
  else
    let pkt : UsbPacket :=
      { b0 := get_usb_midi_code_index m, b1 := m.raw0,
        b2 := if 1 < m.length then m.raw1 else 0,
        b3 := if 2 < m.length then m.raw2 else 0 }
    ({ s with usbSent := s.usbSent ++ [pkt],
              usbTxCount := s.usbTxCount + 1 }, true)

/-- Translation of `on_midi_message` from `mode_mgb.c`: the DIN message callback mirrors
the message to USB; Link forwarding is left to the polling loop. -/
def on_midi_message (s : MgbSystem) (m : MidiMessage) : MgbSystem :=
  (usb_midi_send_message s m).1

/-- Translation of `on_usb_midi_message` from `mode_mgb.c`: the body discards the
message (`(void)msg;`) and changes nothing. -/
def on_usb_midi_message (s : MgbSystem) (_ : MidiMessage) : MgbSystem := s

/-- The while-loop of `usb_midi_process_rx` from `usb_midi.c`: read each
packet, count it, decode it, and hand it to the rx callback
(`on_usb_midi_message`) when its decoded length is positive. -/
def usb_rx_loop : List UsbPacket → MgbSystem → MgbSystem
  | [], s => s
  | pkt :: rest, s =>
    let s := { s with usbRxCount := s.usbRxCount + 1 }
    let msg := parse_usb_midi_packet pkt
    let s := if 0 < msg.length then on_usb_midi_message s msg else s
    usb_rx_loop rest s

def usb_midi_process_rx (s : MgbSystem) : MgbSystem :=
  usb_rx_loop s.usbRxPackets { s with usbRxPackets := [] }

/-- Translation of `send_byte_to_mgb` from `mode_mgb.c`: wait out the remainder of the
inter-byte delay, send blocking, stamp `s_last_byte_time` with the time
after the send returns. -/
def send_byte_to_mgb (s : MgbSystem) (b : Nat) : MgbSystem :=
  let elapsed := s.clock - s.lastByteTime
  let s := if elapsed < MGB_INTER_BYTE_DELAY_US then
      { s with clock := s.clock + (MGB_INTER_BYTE_DELAY_US - elapsed) }
    else s
  let d := s.linkDelays.headD 0
  let s := { s with linkSent := s.linkSent ++ [(s.clock, b)],
                    clock := s.clock + d,
                    linkDelays := s.linkDelays.tail }
  { s with lastByteTime := s.clock }

/-- Translation of `forward_message_to_mgb` from `mode_mgb.c`. -/
def forward_message_to_mgb (s : MgbSystem) (msg : MidiMessage) : MgbSystem :=
  let mgb_channel := s.config.midiToMgbChannel msg.channel
  if MGB_CHANNEL_COUNT ≤ mgb_channel then s
  else if ¬ s.config.channelEnabled mgb_channel then s
  else
    let status := (msg.raw0 &&& 0xF0) ||| mgb_channel
    match msg.type with
    | .noteOff | .noteOn | .polyPressure | .controlChange | .pitchBend =>
      let s := send_byte_to_mgb s status
      let s := send_byte_to_mgb s msg.data1
      let s := send_byte_to_mgb s msg.data2
      { s with forwardCount := s.forwardCount + 1 }
    | .programChange | .channelPressure =>
      let s := send_byte_to_mgb s status
      let s := send_byte_to_mgb s msg.data1
      { s with forwardCount := s.forwardCount + 1 }
    | _ => s

/-- Feed one byte from the ring to `parse_byte` and route the emitted
messages to the registered callback `on_midi_message`. -/
def feed_parser_byte (s : MgbSystem) (b : Nat) : MgbSystem :=
  let pr := parse_byte s.parser b
  let s := { s with parser := pr.1 }
  pr.2.foldl on_midi_message s

/-- Translation of `midi_uart_process` from `midi_uart.c`, at system level: drain the
ring and run every drained byte through the parser. -/
def midi_uart_process (s : MgbSystem) : MgbSystem :=
  let res := ring_drain MIDI_RX_BUFFER_SIZE s.ring
  (res.2).foldl feed_parser_byte { s with ring := res.1 }

/-- The `while (midi_uart_get_message(&msg))` loop of `mode_mgb_process`.
The polling queue holds at most one message and nothing refills it inside
the loop, so two iterations reach the loop's exit. -/
def forward_poll_loop : Nat → MgbSystem → MgbSystem
  | 0, s => s
  | fuel + 1, s =>
    match midi_uart_get_message s.parser false with
    | (none, _) => s
    | (some msg, parser) =>
      let s := { s with parser := parser }
      let s := if MidiMsgType.noteOff.toNat ≤ msg.type.toNat ∧
          msg.type.toNat ≤ MidiMsgType.pitchBend.toNat then
          forward_message_to_mgb s msg
        else s
      forward_poll_loop fuel s

/-- Translation of `mode_mgb_process` from `mode_mgb.c`. -/
def mode_mgb_process (s : MgbSystem) : MgbSystem :=
  if ¬ s.active then s
  else
    let s := midi_uart_process s
    let s := usb_midi_process_rx s
    forward_poll_loop 2 s

/-- Translation of `on_uart_rx` at system level: the ISR stores the byte in the ring. -/
def system_uart_rx (s : MgbSystem) (b : Nat) : MgbSystem :=
  { s with ring := on_uart_rx_byte s.ring b }

/-! ## Logical MIDI events, for the parser round-trip property

A well-formed input stream carries a sequence of logical message events
-- complete channel-voice or system-common messages, each with its own
status byte -- with real-time bytes interleaved at arbitrary positions,
including between the data bytes of a message. -/

inductive MgEvent where
  | msg2 (st d1 d2 : Nat)
  | msg1 (st d1 : Nat)
  | msg0 (st : Nat)
deriving DecidableEq, Repr

/-- The on-wire bytes of one logical message event. -/
def MgEvent.bytes : MgEvent → List Nat
  | .msg2 st d1 d2 => [st, d1, d2]
  | .msg1 st d1 => [st, d1]
  | .msg0 st => [st]

/-- Well-formedness of one message event: a non-real-time status byte
with the data count the parser's own table assigns it (this rules out
`0xF0` and `0xF7`, whose counts are 255 and 0-with-special-casing),
7-bit data bytes, and no NoteOn with velocity 0 (the parser deliberately
rewrites those). -/
def MgEvent.Wf : MgEvent → Prop
  | .msg2 st d1 d2 =>
    0x80 ≤ st ∧ st < 0xF8 ∧ st ≠ 0xF0 ∧ st ≠ 0xF7 ∧
      get_data_byte_count st = 2 ∧ d1 < 128 ∧ d2 < 128 ∧
      ¬(get_message_type st = MidiMsgType.noteOn ∧ d2 = 0)
  | .msg1 st d1 =>
    0x80 ≤ st ∧ st < 0xF8 ∧ st ≠ 0xF0 ∧ st ≠ 0xF7 ∧
      get_data_byte_count st = 1 ∧
      get_message_type st ≠ MidiMsgType.noteOn ∧ d1 < 128
  | .msg0 st =>
    0x80 ≤ st ∧ st < 0xF8 ∧ st ≠ 0xF0 ∧ st ≠ 0xF7 ∧
      get_data_byte_count st = 0

instance : (e : MgEvent) → Decidable e.Wf
  | .msg2 st d1 d2 =>
    inferInstanceAs (Decidable (0x80 ≤ st ∧ st < 0xF8 ∧ st ≠ 0xF0 ∧
      st ≠ 0xF7 ∧ get_data_byte_count st = 2 ∧ d1 < 128 ∧ d2 < 128 ∧
      ¬(get_message_type st = MidiMsgType.noteOn ∧ d2 = 0)))
  | .msg1 st d1 =>
    inferInstanceAs (Decidable (0x80 ≤ st ∧ st < 0xF8 ∧ st ≠ 0xF0 ∧
      st ≠ 0xF7 ∧ get_data_byte_count st = 1 ∧
      get_message_type st ≠ MidiMsgType.noteOn ∧ d1 < 128))
  | .msg0 st =>
    inferInstanceAs (Decidable (0x80 ≤ st ∧ st < 0xF8 ∧ st ≠ 0xF0 ∧
      st ≠ 0xF7 ∧ get_data_byte_count st = 0))

/-- The byte stream of a sequence of logical message events. -/
def encodeStream (es : List MgEvent) : List Nat :=
  es.flatMap MgEvent.bytes

/-- Everything of the parser state except the message counter: the
real-time branch of `parse_byte` touches only the counter, so parsing is
invariant under this projection. -/
def MidiParser.core (p : MidiParser) :
    ParserState × Nat × MidiMessage × Nat × Bool × MidiMessage :=
  (p.state, p.runningStatus, p.currentMsg, p.expectedDataBytes,
   p.messageReady, p.messageQueue)

/-! ## Interleavings of UART arrivals and drains, for the ring property -/

inductive RingEvent where
  | arrive (b : Nat)
  | drain
deriving DecidableEq, Repr

/-- The readable byte count of the ring, `(head − tail) mod N`. -/
def ringLen (r : RxRing) : Nat :=
  (MIDI_RX_BUFFER_SIZE + r.head - r.tail) % MIDI_RX_BUFFER_SIZE

/-- The readable bytes of the ring, oldest first. -/
def ringContents (r : RxRing) : List Nat :=
  (List.range (ringLen r)).map fun i =>
    r.buf ((r.tail + i) % MIDI_RX_BUFFER_SIZE)

/-- One interleaving step: a byte arrival runs the ISR body; a drain runs
`midi_uart_process`'s loop, appending the visited bytes to the delivered
list.  The third component records the accepted bytes: a byte is accepted
exactly when the ring was not full on arrival. -/
def ringStep : RxRing × List Nat × List Nat → RingEvent →
    RxRing × List Nat × List Nat
  | (r, del, acc), .arrive b =>
    (on_uart_rx_byte r b, del,
     if (r.head + 1) &&& (MIDI_RX_BUFFER_SIZE - 1) ≠ r.tail then acc ++ [b]
     else acc)
  | (r, del, acc), .drain =>
    let res := ring_drain MIDI_RX_BUFFER_SIZE r
    (res.1, del ++ res.2, acc)

/-- Run an interleaving of arrivals and drains from the initial ring. -/
def ringRun (es : List RingEvent) : RxRing × List Nat × List Nat :=
  es.foldl ringStep (RxRing.init, [], [])

/-! ## Coordinator emission runs, for the inter-byte spacing property -/

/-- Model of a run of Link-Sink emissions: for each `(δ, b)` the wall clock first
advances by an arbitrary `δ` (the time the loop spends elsewhere) and
then `send_byte_to_mgb` sends `b`. -/
def mgb_send_run : List (Nat × Nat) → MgbSystem → MgbSystem
  | [], s => s
  | (δ, b) :: rest, s =>
    mgb_send_run rest (send_byte_to_mgb { s with clock := s.clock + δ } b)

/-- Consecutive Link-Sink enqueue instants are at least `D_min` apart. -/
def PacedEmissions (l : List (Nat × Nat)) : Prop :=
  List.Chain' (fun a b => a.1 + MGB_INTER_BYTE_DELAY_US ≤ b.1) l

/-! ## Bitwise bridging facts -/

theorem land_255_eq_mod (x : Nat) : x &&& 255 = x % 256 := by
  have h : (255 : Nat) = 2 ^ 8 - 1 := by norm_num
  rw [h, Nat.and_pow_two_sub_one_eq_mod]

theorem land_15_eq_mod (x : Nat) : x &&& 15 = x % 16 := by
  have h : (15 : Nat) = 2 ^ 4 - 1 := by norm_num
  rw [h, Nat.and_pow_two_sub_one_eq_mod]

set_option maxRecDepth 8000 in
theorem data_byte_land80 : ∀ d < 128, d &&& 0x80 = 0 := by decide

set_option maxRecDepth 8000 in
theorem status_byte_facts : ∀ st < 240, 128 ≤ st →
    st &&& 0x80 = 128 ∧ st &&& 0xF0 ≠ 0xF0 ∧ st ≠ 0xF0 ∧ st ≠ 0xF7 := by
  decide

set_option maxRecDepth 8000 in
theorem noteon_status_facts : ∀ c < 16,
    (0x90 ||| c) &&& 0xF0 = 0x90 ∧ (0x90 ||| c) &&& 0x0F = c ∧
      128 ≤ 0x90 ||| c ∧ (0x90 ||| c) < 240 ∧
      get_data_byte_count (0x90 ||| c) = 2 ∧
      get_message_type (0x90 ||| c) = MidiMsgType.noteOn := by
  decide

/-! ## Parser step lemmas -/

theorem dispatch_message_snd (p : MidiParser) :
    (dispatch_message p).2 = canonicalize_note_on p.currentMsg := rfl

theorem parse_byte_rt (p : MidiParser) (b : Nat) (hb : 0xF8 ≤ b) :
    parse_byte p b =
      ({ p with messageCount := p.messageCount + 1 },
       [{ type := get_message_type b, channel := 0, data1 := 0, data2 := 0,
          raw0 := b, raw1 := 0, raw2 := 0, length := 1 }]) := by
  have hrt : is_realtime_message b = true := by
    simp only [is_realtime_message, decide_eq_true_eq]
    omega
  rw [parse_byte, hrt]
  simp

theorem parse_byte_status (p : MidiParser) (st : Nat)
    (h1 : 128 ≤ st) (h2 : st < 240) (hc : get_data_byte_count st ≠ 0) :
    parse_byte p st =
      ({ p with runningStatus := st,
                expectedDataBytes := get_data_byte_count st,
                state := ParserState.data1,
                currentMsg := p.currentMsg.startStatus st }, []) := by
  obtain ⟨hb80, hbF0, hne1, hne2⟩ := status_byte_facts st h2 h1
  have hrt : is_realtime_message st = false := by
    simp only [is_realtime_message, decide_eq_false_iff_not]
    omega
  rw [parse_byte, hrt]
  simp only [Bool.false_eq_true, if_false]
  split_ifs with hA hB hC hD hE <;>
    first
      | rfl
      | (exfalso; simp_all [MidiMessage.startStatus])
      | simp_all [MidiMessage.startStatus]

theorem parse_byte_data1_more (p : MidiParser) (d : Nat)
    (hp : p.state = ParserState.data1) (hd : d < 128)
    (he : p.expectedDataBytes ≠ 1) :
    parse_byte p d =
      ({ p with currentMsg := p.currentMsg.putData1 d,
                state := ParserState.data2 }, []) := by
  have h80 := data_byte_land80 d hd
  have hrt : is_realtime_message d = false := by
    simp only [is_realtime_message, decide_eq_false_iff_not]
    omega
  rw [parse_byte, hrt]
  simp only [Bool.false_eq_true, if_false]
  split_ifs with hA hB hC hD hE <;>
    first
      | rfl
      | (exfalso; simp_all [MidiMessage.putData1])
      | simp_all [MidiMessage.putData1]

theorem parse_byte_data1_last (p : MidiParser) (d : Nat)
    (hp : p.state = ParserState.data1) (hd : d < 128)
    (he : p.expectedDataBytes = 1) :
    parse_byte p d =
      ({ (dispatch_message { p with currentMsg :=
            { p.currentMsg.putData1 d with data2 := 0 } }).1 with
          state := ParserState.idle },
       [canonicalize_note_on { p.currentMsg.putData1 d with data2 := 0 }]) := by
  have h80 := data_byte_land80 d hd
  have hrt : is_realtime_message d = false := by
    simp only [is_realtime_message, decide_eq_false_iff_not]
    omega
  rw [parse_byte, hrt]
  simp only [Bool.false_eq_true, if_false]
  split_ifs with hA hB hC hD hE <;>
    first
      | rfl
      | (exfalso; simp_all [MidiMessage.putData1])
      | simp_all [MidiMessage.putData1, dispatch_message,
          canonicalize_note_on]

theorem parse_byte_data2 (p : MidiParser) (d : Nat)
    (hp : p.state = ParserState.data2) (hd : d < 128) :
    parse_byte p d =
      ({ (dispatch_message
            { p with currentMsg := p.currentMsg.putData2 d }).1 with
          state := ParserState.idle },
       [canonicalize_note_on (p.currentMsg.putData2 d)]) := by
  have h80 := data_byte_land80 d hd
  have hrt : is_realtime_message d = false := by
    simp only [is_realtime_message, decide_eq_false_iff_not]
    omega
  rw [parse_byte, hrt]
  simp only [Bool.false_eq_true, if_false]
  split_ifs with hA hB hC hD hE <;>
    first
      | rfl
      | (exfalso; simp_all [MidiMessage.putData2])
      | simp_all [MidiMessage.putData2, dispatch_message,
          canonicalize_note_on]

/-! ## Composition lemmas for `parse_bytes` -/

theorem parse_bytes_cons (p : MidiParser) (b : Nat) (bs : List Nat) :
    parse_bytes p (b :: bs) =
      ((parse_bytes (parse_byte p b).1 bs).1,
       (parse_byte p b).2 ++ (parse_bytes (parse_byte p b).1 bs).2) := rfl

theorem parse_bytes_append (p : MidiParser) (xs ys : List Nat) :
    parse_bytes p (xs ++ ys) =
      ((parse_bytes (parse_bytes p xs).1 ys).1,
       (parse_bytes p xs).2 ++ (parse_bytes (parse_bytes p xs).1 ys).2) := by
  induction xs generalizing p with
  | nil => simp [parse_bytes]
  | cons b bs ih =>
    simp only [List.cons_append, parse_bytes_cons, ih, List.append_assoc]

theorem encodeStream_cons (e : MgEvent) (es : List MgEvent) :
    encodeStream (e :: es) = e.bytes ++ encodeStream es := by
  simp [encodeStream]

/-! ## Per-event parsing lemmas -/

set_option maxRecDepth 8000 in
theorem status_land80_hi : ∀ st < 248, 128 ≤ st → st &&& 0x80 = 128 := by
  decide

set_option maxRecDepth 8000 in
theorem zero_data_not_noteon : ∀ st < 248, 128 ≤ st →
    get_data_byte_count st = 0 →
    get_message_type st ≠ MidiMsgType.noteOn := by
  decide

/-- Status byte of a message that expects data bytes (channel voice or
system common, not SysEx): record the partial message and enter `Data1`.
Channel-voice statuses become the running status; system-common statuses
clear it. -/
theorem parse_byte_status_start (p : MidiParser) (st : Nat)
    (h1 : 0x80 ≤ st) (h2 : st < 0xF8) (hne0 : st ≠ 0xF0) (hne7 : st ≠ 0xF7)
    (hc : get_data_byte_count st ≠ 0) :
    parse_byte p st =
      ({ p with
          runningStatus := if st &&& 0xF0 = 0xF0 then 0 else st,
          expectedDataBytes := get_data_byte_count st,
          state := ParserState.data1,
          currentMsg := p.currentMsg.startStatus st }, []) := by
  have h80 : st &&& 0x80 = 128 := status_land80_hi st h2 h1
  have hrt : is_realtime_message st = false := by
    simp only [is_realtime_message, decide_eq_false_iff_not]
    omega
  rw [parse_byte, hrt]
  simp only [Bool.false_eq_true, if_false]
  split_ifs with hA hB hC hD hE <;>
    first
      | rfl
      | (exfalso; simp_all [MidiMessage.startStatus])
      | simp_all [MidiMessage.startStatus]

/-- Status byte of a zero-data message (`0xF4`-`0xF6` region): dispatch
a complete one-byte message immediately. -/
theorem parse_byte_status_zero (p : MidiParser) (st : Nat)
    (h1 : 0x80 ≤ st) (h2 : st < 0xF8) (hne0 : st ≠ 0xF0) (hne7 : st ≠ 0xF7)
    (hc : get_data_byte_count st = 0) :
    parse_byte p st =
      ({ (dispatch_message { p with
            runningStatus := if st &&& 0xF0 = 0xF0 then 0 else st,
            expectedDataBytes := get_data_byte_count st,
            currentMsg :=
              { type := get_message_type st, channel := st &&& 0x0F,
                data1 := 0, data2 := 0, raw0 := st,
                raw1 := p.currentMsg.raw1, raw2 := p.currentMsg.raw2,
                length := 1 } }).1 with state := ParserState.idle },
       [canonicalize_note_on
          { type := get_message_type st, channel := st &&& 0x0F,
            data1 := 0, data2 := 0, raw0 := st,
            raw1 := p.currentMsg.raw1, raw2 := p.currentMsg.raw2,
            length := 1 }]) := by
  have h80 : st &&& 0x80 = 128 := status_land80_hi st h2 h1
  have hrt : is_realtime_message st = false := by
    simp only [is_realtime_message, decide_eq_false_iff_not]
    omega
  rw [parse_byte, hrt]
  simp only [Bool.false_eq_true, if_false]
  split_ifs with hA hB hC hD hE <;>
    first
      | rfl
      | (exfalso; simp_all)
      | simp_all [dispatch_message, canonicalize_note_on]

theorem parse_event_msg2 (p : MidiParser) (st d1 d2 : Nat)
    (h1 : 0x80 ≤ st) (h2 : st < 0xF8) (hne0 : st ≠ 0xF0) (hne7 : st ≠ 0xF7)
    (hc : get_data_byte_count st = 2) (hd1 : d1 < 128) (hd2 : d2 < 128)
    (hno : ¬(get_message_type st = MidiMsgType.noteOn ∧ d2 = 0)) :
    (parse_bytes p [st, d1, d2]).2 =
      [{ type := get_message_type st, channel := st &&& 0x0F,
         data1 := d1, data2 := d2, raw0 := st, raw1 := d1, raw2 := d2,
         length := 3 }] ∧
    (parse_bytes p [st, d1, d2]).1.state = ParserState.idle := by
  rw [parse_bytes_cons,
    parse_byte_status_start p st h1 h2 hne0 hne7 (by omega)]
  rw [parse_bytes_cons, parse_byte_data1_more _ d1 rfl hd1 (by simp [hc])]
  rw [parse_bytes_cons, parse_byte_data2 _ d2 rfl hd2]
  constructor
  · simp [parse_bytes, MidiMessage.startStatus, MidiMessage.putData1,
      MidiMessage.putData2, canonicalize_note_on, hno]
  · simp [parse_bytes]

theorem parse_event_msg1 (p : MidiParser) (st d1 : Nat)
    (h1 : 0x80 ≤ st) (h2 : st < 0xF8) (hne0 : st ≠ 0xF0) (hne7 : st ≠ 0xF7)
    (hc : get_data_byte_count st = 1)
    (hno : get_message_type st ≠ MidiMsgType.noteOn) (hd1 : d1 < 128) :
    (parse_bytes p [st, d1]).2 =
      [{ type := get_message_type st, channel := st &&& 0x0F,
         data1 := d1, data2 := 0, raw0 := st, raw1 := d1,
         raw2 := p.currentMsg.raw2, length := 2 }] ∧
    (parse_bytes p [st, d1]).1.state = ParserState.idle := by
  rw [parse_bytes_cons,
    parse_byte_status_start p st h1 h2 hne0 hne7 (by omega)]
  rw [parse_bytes_cons, parse_byte_data1_last _ d1 rfl hd1 (by simp [hc])]
  constructor
  · simp [parse_bytes, MidiMessage.startStatus, MidiMessage.putData1,
      canonicalize_note_on, hno]
  · simp [parse_bytes]

theorem parse_event_msg0 (p : MidiParser) (st : Nat)
    (h1 : 0x80 ≤ st) (h2 : st < 0xF8) (hne0 : st ≠ 0xF0) (hne7 : st ≠ 0xF7)
    (hc : get_data_byte_count st = 0) :
    (parse_bytes p [st]).2 =
      [{ type := get_message_type st, channel := st &&& 0x0F,
         data1 := 0, data2 := 0, raw0 := st,
         raw1 := p.currentMsg.raw1, raw2 := p.currentMsg.raw2,
         length := 1 }] ∧
    (parse_bytes p [st]).1.state = ParserState.idle := by
  have hnn : get_message_type st ≠ MidiMsgType.noteOn :=
    zero_data_not_noteon st h2 h1 hc
  rw [parse_bytes_cons, parse_byte_status_zero p st h1 h2 hne0 hne7 hc]
  constructor
  · simp [parse_bytes, canonicalize_note_on, hnn]
  · simp [parse_bytes]

theorem parse_event_rt (p : MidiParser) (b : Nat) (hb : 0xF8 ≤ b) :
    (parse_bytes p [b]).2 =
      [{ type := get_message_type b, channel := 0, data1 := 0, data2 := 0,
         raw0 := b, raw1 := 0, raw2 := 0, length := 1 }] ∧
    (parse_bytes p [b]).1.state = p.state := by
  rw [parse_bytes_cons, parse_byte_rt p b hb]
  constructor
  · simp [parse_bytes]
  · simp [parse_bytes]

/-- The condition the round-trip property filters on: a message (or byte)
is real-time exactly when its status byte is `≥ 0xF8`. -/
def nonRealtimeByte (b : Nat) : Bool := b < 0xF8

/-! ## Real-time bytes are transparent to parsing

The real-time branch of `parse_byte` touches only the message counter,
so emissions and the rest of the state depend only on `MidiParser.core`;
this lets any stream be reduced to its non-real-time subsequence. -/

set_option maxHeartbeats 1600000 in
theorem parse_byte_core_congr (p q : MidiParser) (b : Nat)
    (h : p.core = q.core) :
    (parse_byte p b).2 = (parse_byte q b).2 ∧
    (parse_byte p b).1.core = (parse_byte q b).1.core := by
  obtain ⟨ps, prs, pcm, ped, pmr, pmq, pmc⟩ := p
  obtain ⟨qs, qrs, qcm, qed, qmr, qmq, qmc⟩ := q
  simp only [MidiParser.core, Prod.mk.injEq] at h
  obtain ⟨e1, e2, e3, e4, e5, e6⟩ := h
  subst e1; subst e2; subst e3; subst e4; subst e5; subst e6
  simp only [parse_byte, dispatch_message]
  split_ifs <;> simp_all [MidiParser.core]

theorem parse_bytes_core_congr (bs : List Nat) :
    ∀ p q : MidiParser, p.core = q.core →
      (parse_bytes p bs).2 = (parse_bytes q bs).2 ∧
      (parse_bytes p bs).1.core = (parse_bytes q bs).1.core := by
  induction bs with
  | nil => intro p q h; exact ⟨rfl, h⟩
  | cons b rest ih =>
    intro p q h
    obtain ⟨he, hc⟩ := parse_byte_core_congr p q b h
    obtain ⟨ihe, ihc⟩ := ih _ _ hc
    rw [parse_bytes_cons, parse_bytes_cons]
    exact ⟨by rw [he, ihe], ihc⟩

/-- Removing the real-time bytes from a stream changes neither the
non-real-time emissions nor the core of the final parser state, and
drops exactly one emission per removed byte. -/
theorem parse_bytes_rt_filter (bs : List Nat) :
    ∀ p : MidiParser,
      ((parse_bytes p bs).2.filter fun m => nonRealtimeByte m.raw0) =
        ((parse_bytes p (bs.filter nonRealtimeByte)).2.filter
          fun m => nonRealtimeByte m.raw0) ∧
      (parse_bytes p bs).2.length =
        (parse_bytes p (bs.filter nonRealtimeByte)).2.length +
          (bs.filter fun x => !nonRealtimeByte x).length ∧
      (parse_bytes p bs).1.core =
        (parse_bytes p (bs.filter nonRealtimeByte)).1.core := by
  induction bs with
  | nil => intro p; exact ⟨rfl, rfl, rfl⟩
  | cons b rest ih =>
    intro p
    by_cases hb : nonRealtimeByte b = true
    · have hfil : (b :: rest).filter nonRealtimeByte =
          b :: rest.filter nonRealtimeByte := by
        simp [List.filter_cons, hb]
      have hfil2 : ((b :: rest).filter fun x => !nonRealtimeByte x) =
          rest.filter fun x => !nonRealtimeByte x := by
        simp [List.filter_cons, hb]
      rw [hfil, hfil2, parse_bytes_cons, parse_bytes_cons]
      obtain ⟨ih1, ih2, ih3⟩ := ih (parse_byte p b).1
      refine ⟨?_, ?_, ih3⟩
      · rw [List.filter_append, List.filter_append, ih1]
      · rw [List.length_append, List.length_append, ih2]
        omega
    · have hge : 0xF8 ≤ b := by
        simp only [nonRealtimeByte, decide_eq_true_eq,
          Bool.not_eq_true] at hb
        omega
      have hfil : (b :: rest).filter nonRealtimeByte =
          rest.filter nonRealtimeByte := by
        simp [List.filter_cons, hb]
      have hfil2 : ((b :: rest).filter fun x => !nonRealtimeByte x) =
          b :: (rest.filter fun x => !nonRealtimeByte x) := by
        simp [List.filter_cons, hb]
      rw [hfil, hfil2, parse_bytes_cons, parse_byte_rt p b hge]
      obtain ⟨ce, cc⟩ := parse_bytes_core_congr rest
        { p with messageCount := p.messageCount + 1 } p rfl
      obtain ⟨ih1, ih2, ih3⟩ := ih p
      have hdrop : (List.filter (fun m => nonRealtimeByte m.raw0)
          [({ type := get_message_type b, channel := 0, data1 := 0,
              data2 := 0, raw0 := b, raw1 := 0, raw2 := 0,
              length := 1 } : MidiMessage)]) = [] := by
        simp only [List.filter_cons, List.filter_nil, nonRealtimeByte]
        have : ¬ b < 0xF8 := by omega
        simp [this]
      refine ⟨?_, ?_, ?_⟩
      · rw [List.filter_append, hdrop, List.nil_append, ce, ih1]
      · rw [List.length_append, ce, ih2]
        simp
        omega
      · rw [cc]
        exact ih3

/-- Round-trip invariant for real-time-free streams of message events,
generalised over any parser state in `Idle`: one emission per event, all
of them non-real-time, and their raw bytes concatenate to the encoded
stream. -/
theorem round_trip_aux (es : List MgEvent) (hwf : ∀ e ∈ es, e.Wf) :
    ∀ p : MidiParser, p.state = ParserState.idle →
      (parse_bytes p (encodeStream es)).1.state = ParserState.idle ∧
      (parse_bytes p (encodeStream es)).2.length = es.length ∧
      ((parse_bytes p (encodeStream es)).2.filter
          fun m => nonRealtimeByte m.raw0).flatMap MidiMessage.rawBytes =
        encodeStream es := by
  induction es with
  | nil => intro p hp; simp [encodeStream, parse_bytes, hp]
  | cons e es ih =>
    intro p hp
    have hes : ∀ x ∈ es, x.Wf := fun x hx => hwf x (by simp [hx])
    rw [encodeStream_cons, parse_bytes_append]
    cases e with
    | msg2 st d1 d2 =>
      have hew := hwf (MgEvent.msg2 st d1 d2) (by simp)
      simp only [MgEvent.Wf] at hew
      obtain ⟨hA, hB, hC, hD, hE, hF, hG, hH⟩ := hew
      simp only [MgEvent.bytes]
      obtain ⟨hemit, hstate⟩ :=
        parse_event_msg2 p st d1 d2 hA hB hC hD hE hF hG hH
      obtain ⟨ih1, ih2, ih3⟩ := ih hes _ hstate
      refine ⟨ih1, ?_, ?_⟩
      · simp [hemit, ih2]
      · rw [List.filter_append, List.flatMap_append, hemit, ih3]
        have hkeep : nonRealtimeByte st = true := by
          simp [nonRealtimeByte]; omega
        simp [hkeep, MidiMessage.rawBytes]
    | msg1 st d1 =>
      have hew := hwf (MgEvent.msg1 st d1) (by simp)
      simp only [MgEvent.Wf] at hew
      obtain ⟨hA, hB, hC, hD, hE, hF, hG⟩ := hew
      simp only [MgEvent.bytes]
      obtain ⟨hemit, hstate⟩ := parse_event_msg1 p st d1 hA hB hC hD hE hF hG
      obtain ⟨ih1, ih2, ih3⟩ := ih hes _ hstate
      refine ⟨ih1, ?_, ?_⟩
      · simp [hemit, ih2]
      · rw [List.filter_append, List.flatMap_append, hemit, ih3]
        have hkeep : nonRealtimeByte st = true := by
          simp [nonRealtimeByte]; omega
        simp [hkeep, MidiMessage.rawBytes]
    | msg0 st =>
      have hew := hwf (MgEvent.msg0 st) (by simp)
      simp only [MgEvent.Wf] at hew
      obtain ⟨hA, hB, hC, hD, hE⟩ := hew
      simp only [MgEvent.bytes]
      obtain ⟨hemit, hstate⟩ := parse_event_msg0 p st hA hB hC hD hE
      obtain ⟨ih1, ih2, ih3⟩ := ih hes _ hstate
      refine ⟨ih1, ?_, ?_⟩
      · simp [hemit, ih2]
      · rw [List.filter_append, List.flatMap_append, hemit, ih3]
        have hkeep : nonRealtimeByte st = true := by
          simp [nonRealtimeByte]; omega
        simp [hkeep, MidiMessage.rawBytes]

/-- Running-status data byte in `Idle`: the parser synthesises a partial
message from the running status and consumes the byte as its first data
byte (two-data-byte statuses). -/
theorem parse_byte_running_data (p : MidiParser) (d : Nat)
    (hp : p.state = ParserState.idle)
    (h1 : 128 ≤ p.runningStatus) (h2 : p.runningStatus < 240)
    (hd : d < 128) (hc2 : get_data_byte_count p.runningStatus = 2) :
    parse_byte p d =
      ({ p with expectedDataBytes := get_data_byte_count p.runningStatus,
                currentMsg := (p.currentMsg.startStatus p.runningStatus).putData1 d,
                state := ParserState.data2 }, []) := by
  have h80 := data_byte_land80 d hd
  have hrt : is_realtime_message d = false := by
    simp only [is_realtime_message, decide_eq_false_iff_not]
    omega
  rw [parse_byte, hrt]
  simp only [Bool.false_eq_true, if_false]
  split_ifs with hA hB hC hD hE <;>
    first
      | rfl
      | (exfalso; simp_all [MidiMessage.startStatus, MidiMessage.putData1])
      | simp_all [MidiMessage.startStatus, MidiMessage.putData1]

/-- NoteOn with velocity 0, explicit status byte, from any parser state:
the emitted message is the canonicalised NoteOff. -/
theorem noteon_zero_explicit (p : MidiParser) (n kk : Nat)
    (hn : n < 16) (hk : kk < 128) :
    (parse_bytes p [0x90 ||| n, kk, 0]).2 =
      [{ type := MidiMsgType.noteOff, channel := n, data1 := kk, data2 := 0,
         raw0 := 0x80 ||| n, raw1 := kk, raw2 := 0, length := 3 }] := by
  obtain ⟨hF0, h0F, hge, hlt, hcnt, htype⟩ := noteon_status_facts n hn
  rw [parse_bytes_cons, parse_byte_status p _ hge hlt (by omega)]
  rw [parse_bytes_cons, parse_byte_data1_more _ kk rfl hk (by simp [hcnt])]
  rw [parse_bytes_cons, parse_byte_data2 _ 0 rfl (by omega)]
  simp [parse_bytes, MidiMessage.startStatus, MidiMessage.putData1,
    MidiMessage.putData2, canonicalize_note_on, htype, h0F]

/-- NoteOn with velocity 0 supplied through running status. -/
theorem noteon_zero_running (p : MidiParser) (n kk : Nat)
    (hn : n < 16) (hk : kk < 128)
    (hp : p.state = ParserState.idle)
    (hrs : p.runningStatus = 0x90 ||| n) :
    (parse_bytes p [kk, 0]).2 =
      [{ type := MidiMsgType.noteOff, channel := n, data1 := kk, data2 := 0,
         raw0 := 0x80 ||| n, raw1 := kk, raw2 := 0, length := 3 }] := by
  obtain ⟨hF0, h0F, hge, hlt, hcnt, htype⟩ := noteon_status_facts n hn
  rw [parse_bytes_cons,
    parse_byte_running_data p kk hp (by rw [hrs]; exact hge)
      (by rw [hrs]; exact hlt) hk (by rw [hrs]; exact hcnt)]
  rw [parse_bytes_cons, parse_byte_data2 _ 0 rfl (by omega)]
  simp [parse_bytes, MidiMessage.startStatus, MidiMessage.putData1,
    MidiMessage.putData2, canonicalize_note_on, htype, h0F, hrs]

/-! ## Claim theorems for the parser -/

/-- Claim C1 (corrected).  As stated the claim is false: a running-status
message re-emits its synthesised status byte in `raw`, so the
concatenation gains bytes the input never carried (see
`C1_counterexample`); SysEx byte consumption and the NoteOn-velocity-0
rewrite break it as well.  Amended claim: for any stream whose
non-real-time bytes form a sequence of complete messages that each carry
their own status byte -- channel-voice or system-common, with the
parser's data-byte count, excluding SysEx and NoteOn with velocity 0 --
and with real-time bytes interleaved at arbitrary positions, including
between the data bytes of a message, the parser emits exactly one
message per logical event (one per message plus one per real-time byte),
and the concatenation of `raw[0..length]` over the non-real-time
emissions equals the input with real-time bytes removed. -/
theorem C1_parser_round_trip (es : List MgEvent) (hwf : ∀ e ∈ es, e.Wf)
    (bs : List Nat) (hbs : bs.filter nonRealtimeByte = encodeStream es) :
    (parse_bytes MidiParser.init bs).2.length =
      es.length + (bs.filter fun x => !nonRealtimeByte x).length ∧
    ((parse_bytes MidiParser.init bs).2.filter
        fun m => nonRealtimeByte m.raw0).flatMap MidiMessage.rawBytes =
      bs.filter nonRealtimeByte := by
  obtain ⟨f1, f2, f3⟩ := parse_bytes_rt_filter bs MidiParser.init
  obtain ⟨a1, a2, a3⟩ := round_trip_aux es hwf MidiParser.init rfl
  constructor
  · rw [f2, hbs, a2]
  · rw [f1, hbs, a3]

/-- Counterexample to C1 as stated: the running-status stream
`90 3C 40 3E 50` holds two logical NoteOn events in five bytes, but the
emitted messages concatenate to six raw bytes. -/
theorem C1_counterexample :
    ¬(((parse_bytes MidiParser.init [0x90, 0x3C, 0x40, 0x3E, 0x50]).2.filter
        (fun m => nonRealtimeByte m.raw0)).flatMap MidiMessage.rawBytes =
      List.filter nonRealtimeByte [0x90, 0x3C, 0x40, 0x3E, 0x50]) := by
  decide

/-- Witness for C1: four message events -- NoteOn, Program Change,
Tune Request, Song Position -- with a Clock byte inside the NoteOn's
data bytes and an Active Sensing byte between messages. -/
theorem C1_parser_round_trip_witness :
    (∀ e ∈ ([MgEvent.msg2 0x90 0x3C 0x40, MgEvent.msg1 0xC1 0x05,
              MgEvent.msg0 0xF6, MgEvent.msg2 0xF2 0x10 0x20] :
        List MgEvent), e.Wf) ∧
    ([0x90, 0x3C, 0xF8, 0x40, 0xC1, 0x05, 0xF6, 0xFE, 0xF2, 0x10,
        0x20].filter nonRealtimeByte =
      encodeStream [MgEvent.msg2 0x90 0x3C 0x40, MgEvent.msg1 0xC1 0x05,
        MgEvent.msg0 0xF6, MgEvent.msg2 0xF2 0x10 0x20]) ∧
    ((parse_bytes MidiParser.init
        [0x90, 0x3C, 0xF8, 0x40, 0xC1, 0x05, 0xF6, 0xFE, 0xF2, 0x10,
          0x20]).2.length =
      ([MgEvent.msg2 0x90 0x3C 0x40, MgEvent.msg1 0xC1 0x05,
        MgEvent.msg0 0xF6, MgEvent.msg2 0xF2 0x10 0x20] :
          List MgEvent).length +
        ([0x90, 0x3C, 0xF8, 0x40, 0xC1, 0x05, 0xF6, 0xFE, 0xF2, 0x10,
          0x20].filter fun x => !nonRealtimeByte x).length ∧
    ((parse_bytes MidiParser.init
        [0x90, 0x3C, 0xF8, 0x40, 0xC1, 0x05, 0xF6, 0xFE, 0xF2, 0x10,
          0x20]).2.filter
        fun m => nonRealtimeByte m.raw0).flatMap MidiMessage.rawBytes =
      [0x90, 0x3C, 0xF8, 0x40, 0xC1, 0x05, 0xF6, 0xFE, 0xF2, 0x10,
        0x20].filter nonRealtimeByte) :=
  ⟨by decide, by decide,
   C1_parser_round_trip
     [MgEvent.msg2 0x90 0x3C 0x40, MgEvent.msg1 0xC1 0x05,
      MgEvent.msg0 0xF6, MgEvent.msg2 0xF2 0x10 0x20] (by decide)
     [0x90, 0x3C, 0xF8, 0x40, 0xC1, 0x05, 0xF6, 0xFE, 0xF2, 0x10, 0x20]
     (by decide)⟩

/-- Claim C6 (confirmed).  Any byte `≥ 0xF8` makes the parser emit exactly
one message of length 1 whose `raw[0]` is the byte, changing nothing of
the parser state but the message counter -- in particular the state
machine, the partially built message and the running status survive; and
a `0xF8` between the data bytes of a NoteOn emits a Clock message while
the NoteOn still completes uncorrupted. -/
theorem C6_realtime_transparency (p : MidiParser) (b : Nat)
    (hb : 0xF8 ≤ b) :
    parse_byte p b =
      ({ p with messageCount := p.messageCount + 1 },
       [{ type := get_message_type b, channel := 0, data1 := 0, data2 := 0,
          raw0 := b, raw1 := 0, raw2 := 0, length := 1 }]) ∧
    ((parse_bytes MidiParser.init [0x90, 0x3C, 0xF8, 0x40]).2.map
        fun m => (m.type, m.rawBytes)) =
      [(MidiMsgType.clock, [0xF8]),
       (MidiMsgType.noteOn, [0x90, 0x3C, 0x40])] :=
  ⟨parse_byte_rt p b hb, by decide⟩

/-- Witness for C6 at `b = 0xF8` on the initial parser state. -/
theorem C6_realtime_transparency_witness :
    0xF8 ≤ 0xF8 ∧
    (parse_byte MidiParser.init 0xF8 =
      ({ MidiParser.init with
          messageCount := MidiParser.init.messageCount + 1 },
       [{ type := get_message_type 0xF8, channel := 0, data1 := 0,
          data2 := 0, raw0 := 0xF8, raw1 := 0, raw2 := 0, length := 1 }]) ∧
    ((parse_bytes MidiParser.init [0x90, 0x3C, 0xF8, 0x40]).2.map
        fun m => (m.type, m.rawBytes)) =
      [(MidiMsgType.clock, [0xF8]),
       (MidiMsgType.noteOn, [0x90, 0x3C, 0x40])]) :=
  ⟨by decide, C6_realtime_transparency MidiParser.init 0xF8 (by decide)⟩

/-- Claim C8 (confirmed).  `0x9n kk 00` -- status byte explicit or supplied
by running status -- emits a message with kind NoteOff, channel `n`,
`data1 = kk`, `data2 = 0` and `raw[0] = 0x80 | n`. -/
theorem C8_noteon_zero_velocity (n kk : Nat) (hn : n < 16)
    (hk : kk < 128) :
    (parse_bytes MidiParser.init [0x90 ||| n, kk, 0]).2 =
      [{ type := MidiMsgType.noteOff, channel := n, data1 := kk,
         data2 := 0, raw0 := 0x80 ||| n, raw1 := kk, raw2 := 0,
         length := 3 }] ∧
    ∀ p : MidiParser, p.state = ParserState.idle →
      p.runningStatus = 0x90 ||| n →
      (parse_bytes p [kk, 0]).2 =
        [{ type := MidiMsgType.noteOff, channel := n, data1 := kk,
           data2 := 0, raw0 := 0x80 ||| n, raw1 := kk, raw2 := 0,
           length := 3 }] :=
  ⟨noteon_zero_explicit MidiParser.init n kk hn hk,
   fun p hp hrs => noteon_zero_running p n kk hn hk hp hrs⟩

/-- Witness for C8 at `n = 1`, `kk = 0x40`. -/
theorem C8_noteon_zero_velocity_witness :
    (1 : Nat) < 16 ∧ (0x40 : Nat) < 128 ∧
    ((parse_bytes MidiParser.init [0x90 ||| 1, 0x40, 0]).2 =
      [{ type := MidiMsgType.noteOff, channel := 1, data1 := 0x40,
         data2 := 0, raw0 := 0x80 ||| 1, raw1 := 0x40, raw2 := 0,
         length := 3 }] ∧
    ∀ p : MidiParser, p.state = ParserState.idle →
      p.runningStatus = 0x90 ||| 1 →
      (parse_bytes p [0x40, 0]).2 =
        [{ type := MidiMsgType.noteOff, channel := 1, data1 := 0x40,
           data2 := 0, raw0 := 0x80 ||| 1, raw1 := 0x40, raw2 := 0,
           length := 3 }]) :=
  ⟨by decide, by decide, C8_noteon_zero_velocity 1 0x40 (by decide) (by decide)⟩

/-- Counterexample to C9 as stated: feeding `0xF7` emits no message at
all, so in particular no standalone SysExEnd message. -/
theorem C9_counterexample :
    (parse_bytes MidiParser.init [0xF7]).2 = [] := by decide

/-- Claim C9 (corrected).  As stated the claim is false: the `0xF7` branch
of `parse_byte` returns to `Idle` before reaching any dispatch, so no
SysExEnd message is emitted (see `C9_counterexample`).  Amended claim:
feeding `0xF7` clears the running status, sets the expected data count
to 0, and returns the parser to `Idle`, emitting no message. -/
theorem C9_sysex_end_no_emission (p : MidiParser) :
    parse_byte p 0xF7 =
      ({ p with runningStatus := 0, expectedDataBytes := 0,
                state := ParserState.idle }, []) := rfl

/-- Claim C10 (confirmed).  The polling interface holds at most one
message: a dispatch that finds the ready flag set leaves the stored
message and the flag unchanged (the new message reaches only the
callback); `midi_uart_get_message` returns the pending message and
clears the flag, and returns nothing -- leaving the state unchanged --
when no message is pending or the output pointer is null. -/
theorem C10_single_message_queue :
    (∀ p : MidiParser, p.messageReady = true →
      (dispatch_message p).1.messageQueue = p.messageQueue ∧
      (dispatch_message p).1.messageReady = true) ∧
    (∀ p : MidiParser, p.messageReady = true →
      midi_uart_get_message p false =
        (some p.messageQueue, { p with messageReady := false })) ∧
    (∀ p : MidiParser, p.messageReady = false →
      midi_uart_get_message p false = (none, p)) ∧
    (∀ p : MidiParser, midi_uart_get_message p true = (none, p)) := by
  refine ⟨fun p hp => ?_, fun p hp => ?_, fun p hp => ?_, fun p => ?_⟩
  · simp [dispatch_message, hp]
  · simp [midi_uart_get_message, hp]
  · simp [midi_uart_get_message, hp]
  · simp [midi_uart_get_message]

/-- Witness for C10 at a concrete parser state with the ready flag set. -/
theorem C10_single_message_queue_witness :
    ({ MidiParser.init with messageReady := true } : MidiParser).messageReady
        = true ∧
    midi_uart_get_message
        ({ MidiParser.init with messageReady := true } : MidiParser) false =
      (some ({ MidiParser.init with
                messageReady := true } : MidiParser).messageQueue,
       { ({ MidiParser.init with messageReady := true } : MidiParser) with
          messageReady := false }) :=
  ⟨rfl, C10_single_message_queue.2.1 _ rfl⟩

/-! ## Link-Sink emission helper lemmas -/

theorem send_byte_fields (s : MgbSystem) (b : Nat) :
    (send_byte_to_mgb s b).linkSent.map Prod.snd =
        s.linkSent.map Prod.snd ++ [b] ∧
      (send_byte_to_mgb s b).config = s.config ∧
      (send_byte_to_mgb s b).forwardCount = s.forwardCount ∧
      (send_byte_to_mgb s b).dropCount = s.dropCount ∧
      (send_byte_to_mgb s b).parser = s.parser ∧
      (send_byte_to_mgb s b).lastByteTime = (send_byte_to_mgb s b).clock := by
  rw [send_byte_to_mgb]
  split_ifs <;> simp

/-- Claim C7 (confirmed).  For a parsed NoteOn `(0x90|c) kk vv`: with
`map[c] = m < MGB_CHANNEL_COUNT` and `enabled[m]`, exactly the bytes
`(0x90|m) kk vv` are appended to the Link Sink and the forwarded counter
increments; with `map[c]` out of range or the enable flag clear, the
coordinator state is returned unchanged (no bytes, forwarded counter
untouched); the drop counter is never incremented on this path. -/
theorem C7_channel_remap (s : MgbSystem) (msg : MidiMessage) (c : Nat)
    (hc : c < 16) (htype : msg.type = MidiMsgType.noteOn)
    (hchan : msg.channel = c) (hraw : msg.raw0 = 0x90 ||| c) :
    (s.config.midiToMgbChannel c < MGB_CHANNEL_COUNT →
      s.config.channelEnabled (s.config.midiToMgbChannel c) = true →
      (forward_message_to_mgb s msg).linkSent.map Prod.snd =
        s.linkSent.map Prod.snd ++
          [0x90 ||| s.config.midiToMgbChannel c, msg.data1, msg.data2] ∧
      (forward_message_to_mgb s msg).forwardCount = s.forwardCount + 1) ∧
    (MGB_CHANNEL_COUNT ≤ s.config.midiToMgbChannel c ∨
        s.config.channelEnabled (s.config.midiToMgbChannel c) = false →
      forward_message_to_mgb s msg = s) ∧
    (forward_message_to_mgb s msg).dropCount = s.dropCount := by
  obtain ⟨hF0, h0F, hge, hlt, hcnt, hty2⟩ := noteon_status_facts c hc
  subst hchan
  refine ⟨fun hm he => ?_, fun hdrop => ?_, ?_⟩
  · rw [forward_message_to_mgb]
    rw [if_neg (by omega), if_neg (by simp [he]), hraw, hF0, htype]
    simp [send_byte_fields]
  · rw [forward_message_to_mgb]
    rcases hdrop with hm | he
    · rw [if_pos hm]
    · by_cases hm5 :
        MGB_CHANNEL_COUNT ≤ s.config.midiToMgbChannel msg.channel
      · rw [if_pos hm5]
      · rw [if_neg hm5, if_pos (by simp [he])]
  · rw [forward_message_to_mgb, htype]
    split_ifs <;> simp [hraw, hF0, send_byte_fields]

/-- Witness for C7 on the freshly initialised coordinator (default map:
channel 0 maps to mGB channel 0, enabled) and the parsed NoteOn
`90 3C 40`. -/
theorem C7_channel_remap_witness :
    (0 : Nat) < 16 ∧
    ({ type := MidiMsgType.noteOn, channel := 0, data1 := 0x3C,
       data2 := 0x40, raw0 := 0x90, raw1 := 0x3C, raw2 := 0x40,
       length := 3 } : MidiMessage).type = MidiMsgType.noteOn ∧
    ({ type := MidiMsgType.noteOn, channel := 0, data1 := 0x3C,
       data2 := 0x40, raw0 := 0x90, raw1 := 0x3C, raw2 := 0x40,
       length := 3 } : MidiMessage).channel = 0 ∧
    ({ type := MidiMsgType.noteOn, channel := 0, data1 := 0x3C,
       data2 := 0x40, raw0 := 0x90, raw1 := 0x3C, raw2 := 0x40,
       length := 3 } : MidiMessage).raw0 = 0x90 ||| 0 ∧
    (((MgbSystem.init 0 [] false []).config.midiToMgbChannel 0 <
        MGB_CHANNEL_COUNT →
      (MgbSystem.init 0 [] false []).config.channelEnabled
          ((MgbSystem.init 0 [] false []).config.midiToMgbChannel 0) = true →
      (forward_message_to_mgb (MgbSystem.init 0 [] false [])
          { type := MidiMsgType.noteOn, channel := 0, data1 := 0x3C,
            data2 := 0x40, raw0 := 0x90, raw1 := 0x3C, raw2 := 0x40,
            length := 3 }).linkSent.map Prod.snd =
        (MgbSystem.init 0 [] false []).linkSent.map Prod.snd ++
          [0x90 ||| (MgbSystem.init 0 [] false []).config.midiToMgbChannel 0,
           0x3C, 0x40] ∧
      (forward_message_to_mgb (MgbSystem.init 0 [] false [])
          { type := MidiMsgType.noteOn, channel := 0, data1 := 0x3C,
            data2 := 0x40, raw0 := 0x90, raw1 := 0x3C, raw2 := 0x40,
            length := 3 }).forwardCount =
        (MgbSystem.init 0 [] false []).forwardCount + 1) ∧
    (MGB_CHANNEL_COUNT ≤ (MgbSystem.init 0 [] false []).config.midiToMgbChannel 0 ∨
        (MgbSystem.init 0 [] false []).config.channelEnabled
          ((MgbSystem.init 0 [] false []).config.midiToMgbChannel 0) = false →
      forward_message_to_mgb (MgbSystem.init 0 [] false [])
          { type := MidiMsgType.noteOn, channel := 0, data1 := 0x3C,
            data2 := 0x40, raw0 := 0x90, raw1 := 0x3C, raw2 := 0x40,
            length := 3 } = MgbSystem.init 0 [] false []) ∧
    (forward_message_to_mgb (MgbSystem.init 0 [] false [])
        { type := MidiMsgType.noteOn, channel := 0, data1 := 0x3C,
          data2 := 0x40, raw0 := 0x90, raw1 := 0x3C, raw2 := 0x40,
          length := 3 }).dropCount =
      (MgbSystem.init 0 [] false []).dropCount) :=
  ⟨by decide, rfl, rfl, by decide,
   C7_channel_remap (MgbSystem.init 0 [] false []) _ 0 (by decide) rfl rfl
     (by decide)⟩

/-! ## Inter-byte spacing (C3) -/

/-- Spacing invariant carried through an emission run: emissions so far
are paced, every emission happened no later than `last_byte_tx_time`,
and the timestamp never runs ahead of the wall clock. -/
def SpacingInv (s : MgbSystem) : Prop :=
  PacedEmissions s.linkSent ∧
    (∀ x ∈ s.linkSent, x.1 ≤ s.lastByteTime) ∧
    s.lastByteTime ≤ s.clock

theorem send_byte_spacing_inv (s : MgbSystem) (b : Nat)
    (h : SpacingInv s) : SpacingInv (send_byte_to_mgb s b) := by
  obtain ⟨hpaced, hle, hlc⟩ := h
  rw [send_byte_to_mgb]
  split_ifs with hfast
  all_goals {
    refine ⟨?_, ?_, ?_⟩
    · refine List.chain'_append.mpr ⟨hpaced, List.chain'_singleton _, ?_⟩
      intro x hx y hy
      have hx2 := hle x (List.mem_of_mem_getLast? hx)
      simp only [List.head?_cons, Option.mem_def, Option.some.injEq] at hy
      subst hy
      simp only [MGB_INTER_BYTE_DELAY_US] at hfast ⊢
      omega
    · intro x hx
      rcases List.mem_append.mp hx with hx1 | hx2
      · have := hle x hx1
        simp only [MGB_INTER_BYTE_DELAY_US] at hfast ⊢
        omega
      · simp only [List.mem_singleton] at hx2
        subst hx2
        simp
    · simp }

theorem clock_advance_spacing_inv (s : MgbSystem) (δ : Nat)
    (h : SpacingInv s) : SpacingInv { s with clock := s.clock + δ } := by
  obtain ⟨hpaced, hle, hlc⟩ := h
  exact ⟨hpaced, hle, by simp; omega⟩

theorem mgb_send_run_spacing_inv (ops : List (Nat × Nat)) :
    ∀ s : MgbSystem, SpacingInv s → SpacingInv (mgb_send_run ops s) := by
  induction ops with
  | nil => intro s h; exact h
  | cons op rest ih =>
    intro s h
    obtain ⟨δ, b⟩ := op
    exact ih _ (send_byte_spacing_inv _ b (clock_advance_spacing_inv s δ h))

/-- Claim C3 (confirmed).  Along any run of coordinator emissions --
arbitrary wall-clock gaps before each `send_byte_to_mgb`, arbitrary
blocking delays inside the Link Sink -- consecutive Link-Sink enqueue
instants are at least `D_min = 500` microseconds apart, and after every
send the `last_byte_tx_time` stamp equals the wall-clock instant at
which the send returned. -/
theorem C3_inter_byte_spacing :
    (∀ (c0 : Nat) (delays : List Nat) (mounted : Bool)
        (pkts : List UsbPacket) (ops : List (Nat × Nat)),
      PacedEmissions
        (mgb_send_run ops (MgbSystem.init c0 delays mounted pkts)).linkSent) ∧
    (∀ (s : MgbSystem) (b : Nat),
      (send_byte_to_mgb s b).lastByteTime = (send_byte_to_mgb s b).clock) := by
  constructor
  · intro c0 delays mounted pkts ops
    have hinit : SpacingInv (MgbSystem.init c0 delays mounted pkts) := by
      refine ⟨List.chain'_nil, ?_, le_refl _⟩
      intro x hx
      simp [MgbSystem.init] at hx
    exact (mgb_send_run_spacing_inv ops _ hinit).1
  · intro s b
    exact (send_byte_fields s b).2.2.2.2.2

/-! ## Ring buffer lemmas (C5) -/

theorem land_mask_size (x : Nat) :
    x &&& (MIDI_RX_BUFFER_SIZE - 1) = x % MIDI_RX_BUFFER_SIZE :=
  land_255_eq_mod x

theorem ring_push_not_full (r : RxRing) (b : Nat)
    (hh : r.head < 256) (ht : r.tail < 256)
    (hfull : (r.head + 1) &&& (MIDI_RX_BUFFER_SIZE - 1) ≠ r.tail) :
    ringContents (on_uart_rx_byte r b) = ringContents r ++ [b] ∧
    (on_uart_rx_byte r b).head < 256 ∧
    (on_uart_rx_byte r b).tail = r.tail ∧
    (on_uart_rx_byte r b).errorCount = r.errorCount ∧
    (on_uart_rx_byte r b).rxCount = r.rxCount + 1 := by
  have hmask : (r.head + 1) &&& (MIDI_RX_BUFFER_SIZE - 1) =
      (r.head + 1) % 256 := land_mask_size _
  have hfull2 : (r.head + 1) % 256 ≠ r.tail := by rw [← hmask]; exact hfull
  simp only [on_uart_rx_byte]
  rw [if_pos (by simpa using hfull)]
  refine ⟨?_, by simp [hmask]; omega, by simp, by simp, by simp⟩
  simp only [ringContents, ringLen]
  rw [hmask]
  simp only [MIDI_RX_BUFFER_SIZE]
  have hlen : (256 + (r.head + 1) % 256 - r.tail) % 256 =
      (256 + r.head - r.tail) % 256 + 1 := by omega
  rw [hlen, List.range_succ, List.map_append]
  congr 1
  · apply List.map_congr_left
    intro i hi
    simp only [List.mem_range] at hi
    have hne : (r.tail + i) % 256 ≠ r.head := by omega
    simp [hne]
  · have hlast : (r.tail + (256 + r.head - r.tail) % 256) % 256 = r.head := by
      omega
    simp [hlast]

theorem ring_push_full (r : RxRing) (b : Nat)
    (hfull : (r.head + 1) &&& (MIDI_RX_BUFFER_SIZE - 1) = r.tail) :
    on_uart_rx_byte r b =
      { r with rxCount := r.rxCount + 1,
               errorCount := r.errorCount + 1 } := by
  simp only [on_uart_rx_byte]
  rw [if_neg (by simpa using hfull)]

theorem ringContents_pop (r : RxRing) (hh : r.head < 256)
    (ht : r.tail < 256) (hne : r.tail ≠ r.head) :
    ringContents r =
      r.buf r.tail ::
        ringContents { r with
          tail := (r.tail + 1) &&& (MIDI_RX_BUFFER_SIZE - 1) } ∧
    ringLen { r with tail := (r.tail + 1) &&& (MIDI_RX_BUFFER_SIZE - 1) } =
      ringLen r - 1 := by
  have hmask : (r.tail + 1) &&& (MIDI_RX_BUFFER_SIZE - 1) =
      (r.tail + 1) % 256 := land_mask_size _
  simp only [ringContents, ringLen]
  rw [hmask]
  simp only [MIDI_RX_BUFFER_SIZE]
  have hlen1 : 1 ≤ (256 + r.head - r.tail) % 256 := by omega
  constructor
  · have hsplit : (256 + r.head - r.tail) % 256 =
        ((256 + r.head - r.tail) % 256 - 1) + 1 := by omega
    rw [hsplit, List.range_succ_eq_map, List.map_cons, List.map_map]
    have hz : (r.tail + 0) % 256 = r.tail := by omega
    have htl : (256 + r.head - (r.tail + 1) % 256) % 256 =
        (256 + r.head - r.tail) % 256 - 1 := by omega
    rw [hz, htl]
    congr 1
    apply List.map_congr_left
    intro i hi
    simp only [List.mem_range] at hi
    have hidx : (r.tail + Nat.succ i) % 256 =
        ((r.tail + 1) % 256 + i) % 256 := by omega
    simp [Function.comp, hidx]
  · omega

theorem ringContents_of_len_zero (r : RxRing) (h0 : ringLen r = 0) :
    ringContents r = [] := by
  rw [ringContents, h0]
  rfl

theorem ring_tail_eta (r : RxRing) (heq : r.tail = r.head) :
    ({ r with tail := r.head } : RxRing) = r := by
  obtain ⟨b, h, t, e, c⟩ := r
  simp_all

theorem ring_drain_complete :
    ∀ (fuel : Nat) (r : RxRing), r.head < 256 → r.tail < 256 →
      ringLen r ≤ fuel →
      ring_drain fuel r = ({ r with tail := r.head }, ringContents r) := by
  intro fuel
  induction fuel with
  | zero =>
    intro r hh ht hlen
    have h0 : ringLen r = 0 := Nat.le_zero.mp hlen
    have heq : r.tail = r.head := by
      simp only [ringLen, MIDI_RX_BUFFER_SIZE] at h0; omega
    rw [ring_drain, ringContents_of_len_zero r h0, ring_tail_eta r heq]
  | succ n ih =>
    intro r hh ht hlen
    by_cases heq : r.tail = r.head
    · have h0 : ringLen r = 0 := by
        simp only [ringLen, MIDI_RX_BUFFER_SIZE]; omega
      rw [ring_drain, if_pos heq, ringContents_of_len_zero r h0,
        ring_tail_eta r heq]
    · obtain ⟨hcont, hlen2⟩ := ringContents_pop r hh ht heq
      have hlen1 : 1 ≤ ringLen r := by
        simp only [ringLen, MIDI_RX_BUFFER_SIZE]; omega
      have httl : ({ r with
          tail := (r.tail + 1) &&& (MIDI_RX_BUFFER_SIZE - 1) } :
            RxRing).tail < 256 := by
        rw [land_mask_size]
        simp [MIDI_RX_BUFFER_SIZE]
        omega
      have hrec := ih { r with
          tail := (r.tail + 1) &&& (MIDI_RX_BUFFER_SIZE - 1) }
        hh httl (by omega)
      simp only [ring_drain]
      rw [if_neg heq, hrec, hcont]

/-- The invariant carried along any interleaving of arrivals and drains:
ring indices in range, delivered bytes followed by the buffered bytes
are exactly the accepted bytes, and the overflow counter accounts for
exactly the non-accepted arrivals. -/
def RingInv : RxRing × List Nat × List Nat → Prop
  | (r, del, acc) => r.head < 256 ∧ r.tail < 256 ∧
      del ++ ringContents r = acc ∧
      r.errorCount + acc.length = r.rxCount

theorem ringStep_inv (st : RxRing × List Nat × List Nat) (e : RingEvent)
    (h : RingInv st) : RingInv (ringStep st e) := by
  obtain ⟨r, del, acc⟩ := st
  obtain ⟨hh, ht, hdel, hcnt⟩ := h
  cases e with
  | arrive b =>
    by_cases hfull : (r.head + 1) &&& (MIDI_RX_BUFFER_SIZE - 1) = r.tail
    · simp only [ringStep]
      rw [if_neg (not_not_intro hfull), ring_push_full r b hfull]
      refine ⟨hh, ht, ?_, ?_⟩
      · simpa [ringContents, ringLen] using hdel
      · show r.errorCount + 1 + acc.length = r.rxCount + 1
        omega
    · simp only [ringStep]
      rw [if_pos hfull]
      obtain ⟨hc, hh2, ht2, herr, hrx⟩ := ring_push_not_full r b hh ht hfull
      refine ⟨hh2, by rw [ht2]; exact ht, ?_, ?_⟩
      · rw [hc, ← List.append_assoc, hdel]
      · rw [herr, hrx, List.length_append]
        simp only [List.length_singleton]
        omega
  | drain =>
    simp only [ringStep]
    have hlen : ringLen r ≤ MIDI_RX_BUFFER_SIZE := by
      simp only [ringLen, MIDI_RX_BUFFER_SIZE]; omega
    rw [ring_drain_complete MIDI_RX_BUFFER_SIZE r hh ht hlen]
    have h0 : ringContents ({ r with tail := r.head } : RxRing) = [] := by
      apply ringContents_of_len_zero
      simp [ringLen, MIDI_RX_BUFFER_SIZE]
    refine ⟨hh, hh, ?_, hcnt⟩
    rw [h0, List.append_nil]
    exact hdel

theorem ringRun_foldl_inv (es : List RingEvent) :
    ∀ st, RingInv st → RingInv (es.foldl ringStep st) := by
  induction es with
  | nil => intro st h; exact h
  | cons e rest ih => intro st h; exact ih _ (ringStep_inv st e h)

theorem ringRun_inv (es : List RingEvent) : RingInv (ringRun es) := by
  apply ringRun_foldl_inv
  refine ⟨by decide, by decide, ?_, by decide⟩
  simp [RxRing.init, ringContents, ringLen]

/-- Claim C5 (confirmed).  For every interleaving of arrivals and drains:
the delivered bytes followed by the still-buffered bytes are exactly the
accepted bytes in arrival order (so a final drain delivers exactly the
accepted bytes, once each, in order, and nothing for overflowed bytes),
the overflow counter counts exactly the non-accepted arrivals, and an
arrival that finds the ring full leaves the ring contents untouched --
dropping the newest byte -- while incrementing the overflow counter by
one. -/
theorem C5_ring_spsc (es : List RingEvent) :
    (ringRun es).2.1 ++ ringContents (ringRun es).1 = (ringRun es).2.2 ∧
    (ringRun es).1.errorCount + (ringRun es).2.2.length =
      (ringRun es).1.rxCount ∧
    (ringRun (es ++ [RingEvent.drain])).2.1 = (ringRun es).2.2 ∧
    ∀ (r : RxRing) (b : Nat),
      (r.head + 1) &&& (MIDI_RX_BUFFER_SIZE - 1) = r.tail →
      on_uart_rx_byte r b =
        { r with rxCount := r.rxCount + 1,
                 errorCount := r.errorCount + 1 } := by
  have hinv := ringRun_inv es
  rcases h : ringRun es with ⟨r, del, acc⟩
  rw [h] at hinv
  obtain ⟨h1, h2, h3, h4⟩ := hinv
  refine ⟨h3, h4, ?_, fun r b hf => ring_push_full r b hf⟩
  have h5 : ringRun (es ++ [RingEvent.drain]) =
      ringStep (ringRun es) RingEvent.drain := by
    rw [ringRun, ringRun, List.foldl_append]
    rfl
  rw [h5, h]
  simp only [ringStep]
  rw [ring_drain_complete MIDI_RX_BUFFER_SIZE r h1 h2
    (by simp only [ringLen, MIDI_RX_BUFFER_SIZE]; omega)]
  exact h3

/-- Witness for C5's overflow clause at a concrete full ring. -/
theorem C5_ring_spsc_witness :
    (({ RxRing.init with head := 255 } : RxRing).head + 1) &&&
        (MIDI_RX_BUFFER_SIZE - 1) =
      ({ RxRing.init with head := 255 } : RxRing).tail ∧
    on_uart_rx_byte { RxRing.init with head := 255 } 7 =
      { ({ RxRing.init with head := 255 } : RxRing) with
          rxCount := ({ RxRing.init with head := 255 } : RxRing).rxCount + 1,
          errorCount :=
            ({ RxRing.init with head := 255 } : RxRing).errorCount + 1 } :=
  ⟨by decide, (C5_ring_spsc []).2.2.2 _ 7 (by decide)⟩

/-! ## End-to-end scenarios (C2, C4) -/

/-- Counterexample to C2 as stated: with all five bytes already in the
ring when `mode_mgb_process` runs, the parser completes both NoteOn
messages inside one `midi_uart_process` call, the one-slot polling queue
can hold only the first, and the Link Sink receives only `90 3C 40`. -/
theorem C2_counterexample :
    ((mode_mgb_process ([0x90, 0x3C, 0x40, 0x3E, 0x50].foldl system_uart_rx
        (MgbSystem.init 0 [] false []))).linkSent.map Prod.snd =
      [0x90, 0x3C, 0x40]) ∧
    (mode_mgb_process ([0x90, 0x3C, 0x40, 0x3E, 0x50].foldl system_uart_rx
        (MgbSystem.init 0 [] false []))).parser.messageCount = 2 ∧
    ¬((mode_mgb_process ([0x90, 0x3C, 0x40, 0x3E, 0x50].foldl system_uart_rx
        (MgbSystem.init 0 [] false []))).linkSent.map Prod.snd =
      [0x90, 0x3C, 0x40, 0x90, 0x3E, 0x50]) := by
  decide

/-- Claim C2 (corrected, amended): feeding `90 3C 40 3E 50` one byte per processing
pass -- so each completed message is polled before the next completes --
parses two NoteOn messages and emits exactly the six Link bytes
`90 3C 40 90 3E 50`; when instead both messages complete within a single
pass, only the first is emitted (see `C2_counterexample`). -/
theorem C2_s1_per_byte_scenario :
    ([0x90, 0x3C, 0x40, 0x3E, 0x50].foldl
        (fun s b => mode_mgb_process (system_uart_rx s b))
        (MgbSystem.init 0 [] false [])).linkSent.map Prod.snd =
      [0x90, 0x3C, 0x40, 0x90, 0x3E, 0x50] ∧
    ([0x90, 0x3C, 0x40, 0x3E, 0x50].foldl
        (fun s b => mode_mgb_process (system_uart_rx s b))
        (MgbSystem.init 0 [] false [])).parser.messageCount = 2 ∧
    ([0x90, 0x3C, 0x40, 0x3E, 0x50].foldl
        (fun s b => mode_mgb_process (system_uart_rx s b))
        (MgbSystem.init 0 [] false [])).forwardCount = 2 ∧
    ((parse_bytes MidiParser.init [0x90, 0x3C, 0x40, 0x3E, 0x50]).2.map
        fun m => m.type) = [MidiMsgType.noteOn, MidiMsgType.noteOn] := by
  decide

/-- Claim C4 (code bug).  A channel-voice NoteOn arriving from the USB
host -- packet `09 90 3C 40`, decoded by `parse_usb_midi_packet` to a
valid three-byte NoteOn -- is read and counted by
`usb_midi_process_rx`, but `on_usb_midi_message` discards it and
`mode_mgb_process` polls only the DIN queue, so nothing ever reaches the
Link Sink: no bytes are emitted and the forwarded counter stays 0. -/
theorem C4_usb_message_never_forwarded :
    (parse_usb_midi_packet ⟨0x09, 0x90, 0x3C, 0x40⟩).type =
        MidiMsgType.noteOn ∧
    (parse_usb_midi_packet ⟨0x09, 0x90, 0x3C, 0x40⟩).length = 3 ∧
    (mode_mgb_process
        (MgbSystem.init 0 [] true [⟨0x09, 0x90, 0x3C, 0x40⟩])).usbRxCount
      = 1 ∧
    (mode_mgb_process
        (MgbSystem.init 0 [] true [⟨0x09, 0x90, 0x3C, 0x40⟩])).linkSent
      = [] ∧
    (mode_mgb_process
        (MgbSystem.init 0 [] true [⟨0x09, 0x90, 0x3C, 0x40⟩])).forwardCount
      = 0 := by
  decide

end MIDIBoy
